import Mathlib

/-!
Shallow embedding of the TTL cache store of `src/cache.py`
(class `CacheManager`) from the crypto-mcp-server repository.

Modelling conventions:
* JSON-serializable Python values are the inductive `Json`.
* The in-memory dict `self.cache_data` is an insertion-ordered association
  list `List (String × Json)`; Python dict semantics (`d[k] = v` replaces in
  place, `del d[k]` removes the unique binding, `k in d` / `d.get`) are the
  functions `listInsert`, `listErase`, `listGet`.
* The backing file on disk is a `FileState`: `absent` (no file), `corrupt`
  (present but unreadable or unparsable by `json.load`), or `stored d`
  (present and holding the JSON serialization of the dict `d`, as written
  by `json.dump`).
* Wall-clock instants are integers (seconds); `timedelta(minutes=m)` is
  `m * 60`. `datetime.fromisoformat` is an abstract parameter
  `parse : String → Option Int` (`none` models a raised `ValueError` /
  `TypeError`, caught by the bare `except` in `_is_expired`).
* `os.makedirs(os.path.dirname(p), exist_ok=True)` on a writable filesystem
  succeeds exactly when the directory part of `p` is nonempty, i.e. when `p`
  contains a slash; `os.path.dirname` of a slash-free path is the empty
  string, and `os.makedirs('', exist_ok=True)` raises `FileNotFoundError`
  (only `FileExistsError` is suppressed by `exist_ok`). Raised Python
  exceptions are the `Except PyError` monad.
-/

/-- A JSON-serializable Python value (the payloads stored in the cache). -/
inductive Json where
  | null : Json
  | bool (b : Bool) : Json
  | num (n : Int) : Json
  | str (s : String) : Json
  | arr (elems : List Json) : Json
  | obj (fields : List (String × Json)) : Json
deriving Repr

/-- Python exceptions that the modelled code can raise to its caller. -/
inductive PyError where
  | fileNotFoundError : PyError
  | attributeError : PyError
deriving Repr, DecidableEq

/-- State of the backing file on disk. -/
inductive FileState where
  | absent : FileState
  | corrupt : FileState
  | stored (entries : List (String × Json)) : FileState

/-- Python `d.get(k)` on an insertion-ordered dict: the value bound to `k`. -/
def listGet (d : List (String × Json)) (k : String) : Option Json :=
  match d with
  | [] => none
  | (k₀, v₀) :: rest => if k₀ = k then some v₀ else listGet rest k

/-- Python `d[k] = v`: replace the binding of `k` in place, or append it. -/
def listInsert (d : List (String × Json)) (k : String) (v : Json) :
    List (String × Json) :=
  match d with
  | [] => [(k, v)]
  | (k₀, v₀) :: rest =>
      if k₀ = k then (k₀, v) :: rest else (k₀, v₀) :: listInsert rest k v

/-- Python `del d[k]` (keys unique): drop the first binding of `k`, if any. -/
def listErase (d : List (String × Json)) (k : String) : List (String × Json) :=
  match d with
  | [] => []
  | (k₀, v₀) :: rest =>
      if k₀ = k then rest else (k₀, v₀) :: listErase rest k

/-- Keys of the dict are pairwise distinct (always true of a Python dict). -/
def keysNodup : List (String × Json) → Bool
  | [] => true
  | (k₀, _) :: rest => (listGet rest k₀).isNone && keysNodup rest

/-- The in-memory state of a `CacheManager` instance together with the state
of its backing file. Fields mirror `self.cache_file`, `self.ttl_minutes`,
`self.cache_data`. -/
structure CacheManagerState where
  cache_file : String
  ttl_minutes : Int
  cache_data : List (String × Json)
  backing : FileState

namespace CacheManager

/-- Embeds `_ensure_data_dir`: `os.makedirs(os.path.dirname(self.cache_file),
exist_ok=True)`. On a writable filesystem this succeeds iff the directory
part of the path is nonempty (the path contains a slash); for a slash-free
path `os.path.dirname` yields `''` and `os.makedirs('')` raises
`FileNotFoundError`. -/
def ensure_data_dir (cache_file : String) : Except PyError Unit :=
  if cache_file.data.any (fun c => c = '/') then Except.ok ()
  else Except.error PyError.fileNotFoundError

/-- Embeds the read performed by `_load_cache` after `_ensure_data_dir`:
`json.load` of an existing well-formed file yields its dict; a missing file,
or any exception from reading or parsing (caught by the bare `except`),
yields `{}`. -/
def load_cache_data (backing : FileState) : List (String × Json) :=
  match backing with
  | FileState.stored entries => entries
  | _ => []

/-- Embeds `__init__` (construction, spec's `open`): stores the path and TTL
and loads `self.cache_data` via `_load_cache`, which first calls
`_ensure_data_dir` (whose `FileNotFoundError` propagates) and then reads the
file. Construction never writes the file. -/
def init (cache_file : String) (ttl_minutes : Int) (backing : FileState) :
    Except PyError CacheManagerState :=
  match ensure_data_dir cache_file with
  | Except.error e => Except.error e
  | Except.ok _ =>
      Except.ok { cache_file := cache_file, ttl_minutes := ttl_minutes,
                  cache_data := load_cache_data backing, backing := backing }

/-- Embeds `_save_cache`: `_ensure_data_dir` then `json.dump(self.cache_data, f)`,
making the file hold exactly the serialization of the in-memory dict. -/
def save_cache (st : CacheManagerState) : Except PyError CacheManagerState :=
  match ensure_data_dir st.cache_file with
  | Except.error e => Except.error e
  | Except.ok _ => Except.ok { st with backing := FileState.stored st.cache_data }

/-- Embeds `_is_expired(timestamp_str)`: parse the timestamp, add
`timedelta(minutes=self.ttl_minutes)` and compare with `datetime.now()`
using strict `>`; any exception (unparsable string, or a non-string
argument making `fromisoformat` raise `TypeError`) is caught and reported
as expired. -/
def is_expired (parse : String → Option Int) (now : Int) (ttl_minutes : Int)
    (timestamp_val : Json) : Bool :=
  match timestamp_val with
  | Json.str s =>
      match parse s with
      | some cached_time => decide (cached_time + ttl_minutes * 60 < now)
      | none => true
  | _ => true

/-- Embeds `get(symbol)`: `None` if absent; else read
`cached_entry.get('timestamp', '')` (an `AttributeError` if the entry is not
a dict), and if expired, `del` the entry, `_save_cache`, and return `None`;
otherwise return the entry unchanged. The returned pair is (Python return
value, resulting state). -/
def get (parse : String → Option Int) (now : Int) (st : CacheManagerState)
    (symbol : String) : Except PyError (Option Json × CacheManagerState) :=
  match listGet st.cache_data symbol with
  | none => Except.ok (none, st)
  | some cached_entry =>
      match cached_entry with
      | Json.obj fields =>
          if is_expired parse now st.ttl_minutes
              ((listGet fields "timestamp").getD (Json.str "")) then
            match save_cache { st with cache_data := listErase st.cache_data symbol } with
            | Except.error e => Except.error e
            | Except.ok st' => Except.ok (none, st')
          else
            Except.ok (some cached_entry, st)
      | _ => Except.error PyError.attributeError

/-- Embeds `save(symbol, data)`: `self.cache_data[symbol] = data` followed by
`_save_cache()`. Note that `data` is stored verbatim; no timestamp is added. -/
def save (st : CacheManagerState) (symbol : String) (data : Json) :
    Except PyError CacheManagerState :=
  save_cache { st with cache_data := listInsert st.cache_data symbol data }

/-- Embeds `clear(symbol=None)`: `if symbol:` is Python truthiness, so both
`None` and the empty string take the branch that replaces `self.cache_data`
with `{}`; a nonempty string deletes just that key when present. Always ends
with `_save_cache()`. -/
def clear (st : CacheManagerState) (symbol : Option String) :
    Except PyError CacheManagerState :=
  save_cache { st with cache_data :=
    match symbol with
    | some s =>
        if s = "" then ([] : List (String × Json)) else listErase st.cache_data s
    | none => ([] : List (String × Json)) }

end CacheManager

/-- The `timestamp` field of a stored entry, when the entry is a JSON object:
`none` when the entry is not an object or the field is absent. -/
def entryTimestampField (v : Json) : Option Json :=
  match v with
  | Json.obj fields => listGet fields "timestamp"
  | _ => none

/-- The `timestamp` field of `fields` is missing, not a string, or a string
the clock parser rejects — exactly the situations where `_is_expired`'s bare
`except` fires on `cached_entry.get('timestamp', '')`. -/
def timestampUnusable (parse : String → Option Int)
    (fields : List (String × Json)) : Bool :=
  match (listGet fields "timestamp").getD (Json.str "") with
  | Json.str s => (parse s).isNone
  | _ => true

theorem listGet_listInsert_self (d : List (String × Json)) (k : String)
    (v : Json) : listGet (listInsert d k v) k = some v := by
  induction d with
  | nil => simp [listInsert, listGet]
  | cons hd tl ih =>
      obtain ⟨k₀, v₀⟩ := hd
      by_cases h : k₀ = k
      · simp [listInsert, listGet, h]
      · simp [listInsert, listGet, h, ih]

theorem listGet_listInsert_ne (d : List (String × Json)) (k k' : String)
    (v : Json) (h : k' ≠ k) :
    listGet (listInsert d k v) k' = listGet d k' := by
  induction d with
  | nil => simp [listInsert, listGet, Ne.symm h]
  | cons hd tl ih =>
      obtain ⟨k₀, v₀⟩ := hd
      by_cases h₀ : k₀ = k
      · subst h₀
        simp [listInsert, listGet, Ne.symm h]
      · simp [listInsert, listGet, h₀, ih]

theorem listGet_listErase_ne (d : List (String × Json)) (k k' : String)
    (h : k' ≠ k) : listGet (listErase d k) k' = listGet d k' := by
  induction d with
  | nil => simp [listErase]
  | cons hd tl ih =>
      obtain ⟨k₀, v₀⟩ := hd
      by_cases h₀ : k₀ = k
      · subst h₀
        simp [listErase, listGet, Ne.symm h]
      · simp [listErase, listGet, h₀, ih]

theorem listGet_listErase_self (d : List (String × Json)) (k : String)
    (hnd : keysNodup d = true) : listGet (listErase d k) k = none := by
  induction d with
  | nil => simp [listErase, listGet]
  | cons hd tl ih =>
      obtain ⟨k₀, v₀⟩ := hd
      simp only [keysNodup, Bool.and_eq_true] at hnd
      by_cases h₀ : k₀ = k
      · subst h₀
        simpa [listErase, Option.isNone_iff_eq_none] using hnd.1
      · simp [listErase, listGet, h₀, ih hnd.2]

theorem listErase_of_not_mem (d : List (String × Json)) (k : String)
    (h : listGet d k = none) : listErase d k = d := by
  induction d with
  | nil => simp [listErase]
  | cons hd tl ih =>
      obtain ⟨k₀, v₀⟩ := hd
      by_cases h₀ : k₀ = k
      · simp [listGet, h₀] at h
      · simp only [listGet, if_neg h₀] at h
        simp [listErase, h₀, ih h]

/-- A payload like the one in the repository's own tests, but with no
`timestamp` field. -/
def demoNoTs : Json := Json.obj [("price", Json.num 45000)]

/-- A concrete ISO-8601 timestamp string (100 seconds past the epoch). -/
def demoTsStr : String := "1970-01-01T00:01:40"

/-- A payload of the shape the repository's callers store: a `timestamp`
field plus data fields. -/
def demoWithTs : Json :=
  Json.obj [("timestamp", Json.str demoTsStr), ("price", Json.num 45000)]

/-- A concrete instance of `datetime.fromisoformat`: it accepts exactly the
sample timestamp string (as instant 100) and rejects everything else, in
particular the empty string, which the real parser also rejects. -/
def demoParse : String → Option Int :=
  fun s => if s = demoTsStr then some 100 else none

/-- A freshly opened store on the default path with the default 5-minute TTL
and no backing file. -/
def demoState : CacheManagerState :=
  { cache_file := "data/cache.json", ttl_minutes := 5,
    cache_data := [], backing := FileState.absent }

/-- The store after `save('BTC', demoWithTs)` on `demoState`. -/
def demoSaved : CacheManagerState :=
  { cache_file := "data/cache.json", ttl_minutes := 5,
    cache_data := [("BTC", demoWithTs)],
    backing := FileState.stored [("BTC", demoWithTs)] }

/-- The store after `save('BTC', demoNoTs)` on `demoState`. -/
def demoSavedNoTs : CacheManagerState :=
  { cache_file := "data/cache.json", ttl_minutes := 5,
    cache_data := [("BTC", demoNoTs)],
    backing := FileState.stored [("BTC", demoNoTs)] }

/-- A freshly opened store with `ttl_minutes = 0` (as in the repository's
`test_cache_expiration`). -/
def demoZeroTtl : CacheManagerState :=
  { cache_file := "data/cache.json", ttl_minutes := 0,
    cache_data := [], backing := FileState.absent }

/-- The zero-TTL store after `save('BTC', demoWithTs)`. -/
def demoZeroSaved : CacheManagerState :=
  { cache_file := "data/cache.json", ttl_minutes := 0,
    cache_data := [("BTC", demoWithTs)],
    backing := FileState.stored [("BTC", demoWithTs)] }

/-- A store holding two entries, one of them under the empty-string key. -/
def demoTwo : CacheManagerState :=
  { cache_file := "data/cache.json", ttl_minutes := 5,
    cache_data := [("BTC", demoWithTs), ("", demoNoTs)],
    backing := FileState.stored [("BTC", demoWithTs), ("", demoNoTs)] }

/-- Inversion for a successful `save`: the path check passed, and the
resulting state is the input dict with the binding replaced and the file
rewritten from the new dict. -/
theorem save_ok_elim (st st' : CacheManagerState) (k : String) (v : Json)
    (hsave : CacheManager.save st k v = Except.ok st') :
    CacheManager.ensure_data_dir st.cache_file = Except.ok () ∧
    st' = { st with cache_data := listInsert st.cache_data k v,
                    backing := FileState.stored (listInsert st.cache_data k v) } := by
  by_cases hc : st.cache_file.data.any (fun c => c = '/')
  · refine ⟨by simp [CacheManager.ensure_data_dir, hc], ?_⟩
    simp [CacheManager.save, CacheManager.save_cache,
      CacheManager.ensure_data_dir, hc] at hsave
    exact hsave.symm
  · simp [CacheManager.save, CacheManager.save_cache,
      CacheManager.ensure_data_dir, hc] at hsave

/-- Inversion for a successful `_save_cache`: the resulting state is the
input state with the file rewritten from the in-memory dict. -/
theorem save_cache_ok_elim (st st' : CacheManagerState)
    (h : CacheManager.save_cache st = Except.ok st') :
    st' = { st with backing := FileState.stored st.cache_data } := by
  by_cases hc : st.cache_file.data.any (fun c => c = '/')
  · simp [CacheManager.save_cache, CacheManager.ensure_data_dir, hc] at h
    exact h.symm
  · simp [CacheManager.save_cache, CacheManager.ensure_data_dir, hc] at h

/-- If the `timestamp` field of a dict entry is missing, not a string, or
rejected by the clock parser, `_is_expired` reports the entry as expired
(its bare `except` catches the parse failure). -/
theorem is_expired_of_unusable (parse : String → Option Int) (now ttl : Int)
    (fields : List (String × Json))
    (hbad : timestampUnusable parse fields = true) :
    CacheManager.is_expired parse now ttl
      ((listGet fields "timestamp").getD (Json.str "")) = true := by
  unfold timestampUnusable at hbad
  rcases hx : (listGet fields "timestamp").getD (Json.str "") with _ | b | n | s | l | fs
  · rfl
  · rfl
  · rfl
  · rw [hx] at hbad
    simp only [Option.isNone_iff_eq_none] at hbad
    simp [CacheManager.is_expired, hbad]
  · rfl
  · rfl

/-- C1: as stated, the round trip fails for a value without a `timestamp`
field: immediately after `save('BTC', {price: 45000})` (no clock advance,
`now = 0`), `get('BTC')` does not return the value — the entry is treated as
expired, evicted, and `None` is returned. -/
theorem save_then_get_missing_timestamp_not_found :
    CacheManager.save demoState "BTC" demoNoTs = Except.ok demoSavedNoTs ∧
    CacheManager.get demoParse 0 demoSavedNoTs "BTC" =
      Except.ok (none,
        { demoSavedNoTs with
            cache_data := [],
            backing := FileState.stored [] }) :=
  ⟨rfl, rfl⟩

/-- C1 (amended): for a value that is an object carrying a parsable
`timestamp` field whose instant `t` satisfies `now ≤ t + ttl·60`, `save`
followed by `get` on the same store returns the value unchanged,
field for field. -/
theorem save_then_get_fresh_returns_value
    (parse : String → Option Int) (now : Int) (st st' : CacheManagerState)
    (k ts : String) (fields : List (String × Json)) (t : Int)
    (hts : listGet fields "timestamp" = some (Json.str ts))
    (hparse : parse ts = some t)
    (hfresh : now ≤ t + st.ttl_minutes * 60)
    (hsave : CacheManager.save st k (Json.obj fields) = Except.ok st') :
    CacheManager.get parse now st' k = Except.ok (some (Json.obj fields), st') := by
  obtain ⟨-, rfl⟩ := save_ok_elim st st' k (Json.obj fields) hsave
  have hlook : listGet (listInsert st.cache_data k (Json.obj fields)) k
      = some (Json.obj fields) := listGet_listInsert_self _ _ _
  have hnexp : ¬ (t + st.ttl_minutes * 60 < now) := not_lt.mpr hfresh
  simp [CacheManager.get, hlook, CacheManager.is_expired, hts, hparse, hnexp]

/-- Witness for the amended C1 at a concrete store, value, parser and
instant. -/
theorem save_then_get_fresh_returns_value_witness :
    CacheManager.get demoParse 100 demoSaved "BTC" =
      Except.ok (some demoWithTs, demoSaved) :=
  save_then_get_fresh_returns_value demoParse 100 demoState demoSaved "BTC"
    demoTsStr [("timestamp", Json.str demoTsStr), ("price", Json.num 45000)]
    100 rfl rfl (by decide) rfl

/-- C2 counterexample: `save` does not stamp a write timestamp. Saving a
value with no `timestamp` field stores it verbatim: the stored entry for
`BTC` is exactly the input and carries no timestamp field at all, so it is
not stamped with the current (or any) time. -/
theorem save_does_not_stamp_timestamp :
    CacheManager.save demoState "BTC" demoNoTs = Except.ok demoSavedNoTs ∧
    listGet demoSavedNoTs.cache_data "BTC" = some demoNoTs ∧
    entryTimestampField demoNoTs = none :=
  ⟨rfl, rfl, rfl⟩

/-- C2 (amended): `save(k, v)` stores the caller-provided value verbatim
(adding no timestamp of its own), replaces any prior entry for `k` in its
entirety, leaves every other key's entry untouched, and synchronously
persists the full store to the backing file. -/
theorem save_stores_verbatim (st st' : CacheManagerState) (k : String)
    (v : Json) (hsave : CacheManager.save st k v = Except.ok st') :
    st'.cache_data = listInsert st.cache_data k v ∧
    listGet st'.cache_data k = some v ∧
    (∀ k', k' ≠ k → listGet st'.cache_data k' = listGet st.cache_data k') ∧
    st'.backing = FileState.stored st'.cache_data := by
  obtain ⟨-, rfl⟩ := save_ok_elim st st' k v hsave
  exact ⟨rfl, listGet_listInsert_self _ _ _,
    fun k' hk => listGet_listInsert_ne st.cache_data k k' v hk, rfl⟩

/-- Witness for the amended C2: after the concrete save, the stored entry is
exactly the saved value. -/
theorem save_stores_verbatim_witness :
    listGet demoSaved.cache_data "BTC" = some demoWithTs :=
  (save_stores_verbatim demoState demoSaved "BTC" demoWithTs rfl).2.1

/-- C3: a `get` of a key whose entry's parsed write timestamp plus the TTL
is earlier than the current time removes the entry from the in-memory dict,
persists the updated store to the backing file, returns `None`, and in
particular never returns the stale value. -/
theorem get_expired_evicts_persists_not_found
    (parse : String → Option Int) (now : Int) (st : CacheManagerState)
    (k ts : String) (fields : List (String × Json)) (t : Int)
    (hnd : keysNodup st.cache_data = true)
    (hdir : CacheManager.ensure_data_dir st.cache_file = Except.ok ())
    (hlook : listGet st.cache_data k = some (Json.obj fields))
    (hts : (listGet fields "timestamp").getD (Json.str "") = Json.str ts)
    (hparse : parse ts = some t)
    (hexp : t + st.ttl_minutes * 60 < now) :
    CacheManager.get parse now st k =
      Except.ok (none,
        { st with
            cache_data := listErase st.cache_data k,
            backing := FileState.stored (listErase st.cache_data k) }) ∧
    listGet (listErase st.cache_data k) k = none ∧
    (∀ v st', CacheManager.get parse now st k ≠ Except.ok (some v, st')) := by
  have hmain : CacheManager.get parse now st k =
      Except.ok (none,
        { st with
            cache_data := listErase st.cache_data k,
            backing := FileState.stored (listErase st.cache_data k) }) := by
    simp [CacheManager.get, hlook, CacheManager.is_expired, hts, hparse, hexp,
      CacheManager.save_cache, hdir]
  refine ⟨hmain, listGet_listErase_self _ _ hnd, fun v st' hcontra => ?_⟩
  rw [hmain] at hcontra
  simp at hcontra

/-- Witness for C3: a concrete expired read (`now` well past the entry's
timestamp plus five minutes) evicts and persists. -/
theorem get_expired_evicts_witness :
    CacheManager.get demoParse 1000 demoSaved "BTC" =
      Except.ok (none,
        { demoSaved with
            cache_data := [],
            backing := FileState.stored [] }) :=
  (get_expired_evicts_persists_not_found demoParse 1000 demoSaved "BTC"
    demoTsStr [("timestamp", Json.str demoTsStr), ("price", Json.num 45000)]
    100 rfl rfl rfl rfl rfl (by decide)).1

/-- C4 counterexample: opening a store whose backing path has no directory
part raises `FileNotFoundError` (from `os.makedirs('', exist_ok=True)` in
`_ensure_data_dir`) even though the backing file is merely absent, so
construction does not succeed for every backing path. -/
theorem init_dirless_path_raises :
    CacheManager.init "cache.json" 5 FileState.absent =
      Except.error PyError.fileNotFoundError :=
  rfl

/-- C4 (amended): for every backing path with a nonempty directory part,
opening a store against a nonexistent or corrupted backing file raises no
error and yields a store with zero entries. -/
theorem init_bad_backing_yields_empty_store
    (path : String) (ttl : Int) (backing : FileState)
    (hdir : CacheManager.ensure_data_dir path = Except.ok ())
    (hbad : backing = FileState.absent ∨ backing = FileState.corrupt) :
    CacheManager.init path ttl backing =
      Except.ok { cache_file := path, ttl_minutes := ttl,
                  cache_data := [], backing := backing } := by
  rcases hbad with rfl | rfl <;>
    simp [CacheManager.init, hdir, CacheManager.load_cache_data]

/-- Witness for the amended C4: opening on the repository's default path
against a corrupted file succeeds with an empty store. -/
theorem init_bad_backing_witness :
    CacheManager.init "data/cache.json" 5 FileState.corrupt =
      Except.ok { cache_file := "data/cache.json", ttl_minutes := 5,
                  cache_data := [], backing := FileState.corrupt } :=
  init_bad_backing_yields_empty_store "data/cache.json" 5 FileState.corrupt
    rfl (Or.inr rfl)

/-- C5 counterexample: on a TTL = 0 store, `get` performed with no clock
advance (current time exactly equal to the value's stored timestamp, here
100) right after `save` returns the value, not `None`: the expiry comparison
`datetime.now() > expiry_time` is strict, so at the same instant the entry
is not yet expired. -/
theorem zero_ttl_same_instant_returns_value :
    CacheManager.save demoZeroTtl "BTC" demoWithTs = Except.ok demoZeroSaved ∧
    CacheManager.get demoParse 100 demoZeroSaved "BTC" =
      Except.ok (some demoWithTs, demoZeroSaved) :=
  ⟨rfl, rfl⟩

/-- C5 (amended): on a TTL = 0 store, `get(k)` after `save(k, v)` returns
`None` (evicting the entry) whenever the current time is strictly later than
the value's stored timestamp — any positive clock advance, however small;
with literally no clock advance the strict comparison leaves the entry
unexpired. -/
theorem zero_ttl_get_after_clock_advance_not_found
    (parse : String → Option Int) (now : Int) (st st' : CacheManagerState)
    (k ts : String) (fields : List (String × Json)) (t : Int)
    (httl : st.ttl_minutes = 0)
    (hts : listGet fields "timestamp" = some (Json.str ts))
    (hparse : parse ts = some t)
    (hsave : CacheManager.save st k (Json.obj fields) = Except.ok st')
    (hlt : t < now) :
    CacheManager.get parse now st' k =
      Except.ok (none,
        { st' with
            cache_data := listErase st'.cache_data k,
            backing := FileState.stored (listErase st'.cache_data k) }) := by
  obtain ⟨hdir, rfl⟩ := save_ok_elim st st' k (Json.obj fields) hsave
  have hlook : listGet (listInsert st.cache_data k (Json.obj fields)) k
      = some (Json.obj fields) := listGet_listInsert_self _ _ _
  have hexp : t + st.ttl_minutes * 60 < now := by simpa [httl] using hlt
  simp [CacheManager.get, hlook, CacheManager.is_expired, hts, hparse, hexp,
    CacheManager.save_cache, hdir]

/-- Witness for the amended C5: one second after the stored timestamp, the
zero-TTL entry written by the concrete save is gone. -/
theorem zero_ttl_get_after_clock_advance_witness :
    CacheManager.get demoParse 101 demoZeroSaved "BTC" =
      Except.ok (none,
        { demoZeroSaved with
            cache_data := [],
            backing := FileState.stored [] }) :=
  zero_ttl_get_after_clock_advance_not_found demoParse 101 demoZeroTtl
    demoZeroSaved "BTC" demoTsStr
    [("timestamp", Json.str demoTsStr), ("price", Json.num 45000)] 100
    rfl rfl rfl rfl (by decide)

/-- C6: a `get` of a key whose dict entry has a missing `timestamp` field,
a non-string one, or one the clock parser rejects treats the entry as
immediately expired: it removes the entry, persists the updated store, and
returns `None`. -/
theorem get_unusable_timestamp_evicts
    (parse : String → Option Int) (now : Int) (st : CacheManagerState)
    (k : String) (fields : List (String × Json))
    (hnd : keysNodup st.cache_data = true)
    (hdir : CacheManager.ensure_data_dir st.cache_file = Except.ok ())
    (hlook : listGet st.cache_data k = some (Json.obj fields))
    (hbad : timestampUnusable parse fields = true) :
    CacheManager.get parse now st k =
      Except.ok (none,
        { st with
            cache_data := listErase st.cache_data k,
            backing := FileState.stored (listErase st.cache_data k) }) ∧
    listGet (listErase st.cache_data k) k = none := by
  have hexp := is_expired_of_unusable parse now st.ttl_minutes fields hbad
  refine ⟨?_, listGet_listErase_self _ _ hnd⟩
  simp [CacheManager.get, hlook, hexp, CacheManager.save_cache, hdir]

/-- Witness for C6: reading the stored entry that lacks a `timestamp` field
evicts it and returns `None`. -/
theorem get_unusable_timestamp_evicts_witness :
    CacheManager.get demoParse 0 demoSavedNoTs "BTC" =
      Except.ok (none,
        { demoSavedNoTs with
            cache_data := [],
            backing := FileState.stored [] }) :=
  (get_unusable_timestamp_evicts demoParse 0 demoSavedNoTs "BTC"
    [("price", Json.num 45000)] rfl rfl rfl rfl).1

/-- C7 counterexample: `clear` with the empty string as key does not remove
only the empty-string entry: on a store also holding a `BTC` entry it
empties the whole dict, because `if symbol:` tests truthiness and `''` is
falsy. -/
theorem clear_empty_string_removes_other_keys :
    listGet demoTwo.cache_data "BTC" = some demoWithTs ∧
    CacheManager.clear demoTwo (some "") =
      Except.ok
        { demoTwo with
            cache_data := [],
            backing := FileState.stored [] } :=
  ⟨rfl, rfl⟩

/-- C7 (amended): for every nonempty key `k`, `clear(k)` removes only the
entry for `k` (a no-op on the dict if `k` is absent) and leaves all other
keys untouched; `clear` with no key — or, by the truthiness test, with the
empty-string key — empties the entire store; in all cases the store is
persisted to the backing file afterward, even when nothing changed. -/
theorem clear_removes_key_or_all_and_persists (st : CacheManagerState)
    (k : String)
    (hdir : CacheManager.ensure_data_dir st.cache_file = Except.ok ())
    (hnd : keysNodup st.cache_data = true)
    (hk : k ≠ "") :
    CacheManager.clear st (some k) =
      Except.ok
        { st with
            cache_data := listErase st.cache_data k,
            backing := FileState.stored (listErase st.cache_data k) } ∧
    listGet (listErase st.cache_data k) k = none ∧
    (∀ k', k' ≠ k →
      listGet (listErase st.cache_data k) k' = listGet st.cache_data k') ∧
    (listGet st.cache_data k = none → listErase st.cache_data k = st.cache_data) ∧
    CacheManager.clear st none =
      Except.ok
        { st with
            cache_data := [],
            backing := FileState.stored [] } := by
  refine ⟨?_, listGet_listErase_self _ _ hnd,
    fun k' hk' => listGet_listErase_ne _ _ _ hk',
    listErase_of_not_mem _ _, ?_⟩
  · simp [CacheManager.clear, hk, CacheManager.save_cache, hdir]
  · simp [CacheManager.clear, CacheManager.save_cache, hdir]

/-- Witness for the amended C7: clearing the nonempty key `BTC` on the
two-entry store removes only that entry and persists. -/
theorem clear_removes_key_witness :
    CacheManager.clear demoTwo (some "BTC") =
      Except.ok
        { demoTwo with
            cache_data := [("", demoNoTs)],
            backing := FileState.stored [("", demoNoTs)] } :=
  (clear_removes_key_or_all_and_persists demoTwo "BTC" rfl rfl (by decide)).1

/-- C8: after every successful `save`, after every successful `clear`, and
after every expiration-evicting `get` (a `None` result for a key that was
present), the backing file holds exactly the JSON serialization of the
current in-memory dict. -/
theorem mutating_ops_persist_backing (st : CacheManagerState) :
    (∀ k v st', CacheManager.save st k v = Except.ok st' →
      st'.backing = FileState.stored st'.cache_data) ∧
    (∀ sym st', CacheManager.clear st sym = Except.ok st' →
      st'.backing = FileState.stored st'.cache_data) ∧
    (∀ parse now k st',
      CacheManager.get parse now st k = Except.ok (none, st') →
      listGet st.cache_data k ≠ none →
      st'.backing = FileState.stored st'.cache_data) := by
  refine ⟨?_, ?_, ?_⟩
  · intro k v st' h
    obtain ⟨-, rfl⟩ := save_ok_elim st st' k v h
    rfl
  · intro sym st' h
    unfold CacheManager.clear at h
    have := save_cache_ok_elim _ _ h
    subst this
    rfl
  · intro parse now k st' h hmem
    unfold CacheManager.get at h
    rcases hl : listGet st.cache_data k with _ | entry
    · exact absurd hl hmem
    · rw [hl] at h
      rcases entry with _ | b | n | s | l | fields
      · simp at h
      · simp at h
      · simp at h
      · simp at h
      · simp at h
      · by_cases hex : CacheManager.is_expired parse now st.ttl_minutes
            ((listGet fields "timestamp").getD (Json.str ""))
        · simp only [hex, if_true] at h
          rcases hsc : CacheManager.save_cache
              { st with cache_data := listErase st.cache_data k } with e | st''
          · rw [hsc] at h
            simp at h
          · rw [hsc] at h
            simp only [Except.ok.injEq, Prod.mk.injEq, true_and] at h
            subst h
            have := save_cache_ok_elim _ _ hsc
            subst this
            rfl
        · simp only [hex, if_false] at h
          simp at h

/-- Witness for C8: the concrete save leaves the file holding exactly the
serialized one-entry dict. -/
theorem mutating_ops_persist_backing_witness :
    demoSaved.backing = FileState.stored demoSaved.cache_data :=
  (mutating_ops_persist_backing demoState).1 "BTC" demoWithTs demoSaved rfl

/-- C9: a `get` of a key that is present with a fresh (parsable, within-TTL)
timestamp returns the entry's value unchanged and has no side effects: the
resulting state — in-memory dict and backing file alike — is exactly the
input state. -/
theorem get_hit_returns_value_no_side_effects
    (parse : String → Option Int) (now : Int) (st : CacheManagerState)
    (k ts : String) (fields : List (String × Json)) (t : Int)
    (hlook : listGet st.cache_data k = some (Json.obj fields))
    (hts : (listGet fields "timestamp").getD (Json.str "") = Json.str ts)
    (hparse : parse ts = some t)
    (hfresh : now ≤ t + st.ttl_minutes * 60) :
    CacheManager.get parse now st k = Except.ok (some (Json.obj fields), st) := by
  have hnexp : ¬ (t + st.ttl_minutes * 60 < now) := not_lt.mpr hfresh
  simp [CacheManager.get, hlook, CacheManager.is_expired, hts, hparse, hnexp]

/-- Witness for C9: a hit one second before expiry returns the entry and
the untouched state. -/
theorem get_hit_no_side_effects_witness :
    CacheManager.get demoParse 399 demoSaved "BTC" =
      Except.ok (some demoWithTs, demoSaved) :=
  get_hit_returns_value_no_side_effects demoParse 399 demoSaved "BTC"
    demoTsStr [("timestamp", Json.str demoTsStr), ("price", Json.num 45000)]
    100 rfl rfl rfl (by decide)

/-- C10: `clear` called with the empty string as the key empties the entire
store — every entry is removed, not just one for the empty-string key —
because `if symbol:` tests truthiness and `''` is falsy, selecting the
clear-all branch. -/
theorem clear_empty_string_empties_store (st : CacheManagerState)
    (hdir : CacheManager.ensure_data_dir st.cache_file = Except.ok ()) :
    CacheManager.clear st (some "") =
      Except.ok
        { st with
            cache_data := [],
            backing := FileState.stored [] } := by
  simp [CacheManager.clear, CacheManager.save_cache, hdir]

/-- Witness for C10: clearing with the empty string on the one-entry store
removes the `BTC` entry as well. -/
theorem clear_empty_string_empties_store_witness :
    CacheManager.clear demoSaved (some "") =
      Except.ok
        { demoSaved with
            cache_data := [],
            backing := FileState.stored [] } :=
  clear_empty_string_empties_store demoSaved rfl
